import Mathlib

/-!
Shallow embedding of honeytail's event pipeline (`leash.go`) in Lean 4.

The embedding models:
* the event data model (`event.Event`: a timestamp and a string-keyed map of
  dynamically typed values, here a tagged union `Value`);
* Go map operations (`lookup`, `delete`, in-place `set`) on an association list;
* the three field mutators `dropEventField`, `scrubEventField`, `addEventField`
  and the chain built by `modifyEventContents` (channels become lists of events,
  each channel stage becomes a `List.map`);
* `crypto/sha256.Sum256` together with `fmt.Sprintf("%v", val)` rendering and
  `fmt.Sprintf("%x", digest)` hex formatting, all executable, so that scrub
  behaviour can be evaluated on concrete events;
* parser selection (`getParserAndOptions` and the nil-parser fatal check in `run`);
* one iteration of the sender loop `sendToLibhoney` (non-blocking channel reads
  become case analysis on list buffers);
* the bounded retry channel `toBeResent` (capacity `2*options.NumSenders`) as a
  reachability relation on its buffer;
* the response handler `handleResponses` (the unchecked type assertion
  `rsp.Metadata.(event.Event)` becomes an explicit crash outcome).
-/

set_option maxRecDepth 100000

namespace Honeytail

/-! ## Data model: `event.Event` -/

/-- Tagged union standing for the dynamically typed values stored in an
event's `Data map[string]interface{}`. -/
inductive Value where
  | str (s : String)
  | int (i : Int)
  | bool (b : Bool)
deriving DecidableEq

/-- `event.Event`: a timestamp (opaque instant, modelled as `Nat`) plus the
string-keyed data map, modelled as an association list. -/
structure Event where
  timestamp : Nat
  data : List (String × Value)
deriving DecidableEq

/-- Go map read `d[f]` (with the `ok` bit as `Option`). -/
def lookupData : List (String × Value) → String → Option Value
  | [], _ => none
  | p :: rest, f => if p.1 = f then some p.2 else lookupData rest f

/-- Go `delete(d, f)`. -/
def deleteData : List (String × Value) → String → List (String × Value)
  | [], _ => []
  | p :: rest, f => if p.1 = f then deleteData rest f else p :: deleteData rest f

/-- Go map write `d[k] = v`: update in place when the key exists, insert
otherwise. -/
def setData : List (String × Value) → String → Value → List (String × Value)
  | [], k, v => [(k, v)]
  | p :: rest, k, v => if p.1 = k then (k, v) :: rest else p :: setData rest k v

/-- `fmt.Sprintf("%v", val)` for the value kinds in the model: a string prints
as itself, an integer in decimal, a boolean as `true`/`false`. -/
def renderValue : Value → String
  | .str s => s
  | .int i => toString i
  | .bool b => if b then "true" else "false"

/-! ## `crypto/sha256` (executable) -/

/-- Truncation to an unsigned 32-bit word. -/
def u32 (x : Nat) : Nat := x % 4294967296

/-- 32-bit rotate right. -/
def rotr (n x : Nat) : Nat := u32 ((x >>> n) ||| (x <<< (32 - n)))

def bSig0 (x : Nat) : Nat := (rotr 2 x) ^^^ (rotr 13 x) ^^^ (rotr 22 x)

def bSig1 (x : Nat) : Nat := (rotr 6 x) ^^^ (rotr 11 x) ^^^ (rotr 25 x)

def sSig0 (x : Nat) : Nat := (rotr 7 x) ^^^ (rotr 18 x) ^^^ (x >>> 3)

def sSig1 (x : Nat) : Nat := (rotr 17 x) ^^^ (rotr 19 x) ^^^ (x >>> 10)

def chF (x y z : Nat) : Nat := (x &&& y) ^^^ ((x ^^^ 4294967295) &&& z)

def majF (x y z : Nat) : Nat := (x &&& y) ^^^ (x &&& z) ^^^ (y &&& z)

/-- The SHA-256 round constants (FIPS 180-4, written in decimal). -/
def sha256K : List Nat :=
  [1116352408, 1899447441, 3049323471, 3921009573, 961987163, 1508970993,
   2453635748, 2870763221, 3624381080, 310598401, 607225278, 1426881987,
   1925078388, 2162078206, 2614888103, 3248222580, 3835390401, 4022224774,
   264347078, 604807628, 770255983, 1249150122, 1555081692, 1996064986,
   2554220882, 2821834349, 2952996808, 3210313671, 3336571891, 3584528711,
   113926993, 338241895, 666307205, 773529912, 1294757372, 1396182291,
   1695183700, 1986661051, 2177026350, 2456956037, 2730485921, 2820302411,
   3259730800, 3345764771, 3516065817, 3600352804, 4094571909, 275423344,
   430227734, 506948616, 659060556, 883997877, 958139571, 1322822218,
   1537002063, 1747873779, 1955562222, 2024104815, 2227730452, 2361852424,
   2428436474, 2756734187, 3204031479, 3329325298]

/-- The eight 32-bit words of SHA-256 working state. -/
structure Hash8 where
  a : Nat
  b : Nat
  c : Nat
  d : Nat
  e : Nat
  f : Nat
  g : Nat
  h : Nat
deriving DecidableEq

def initH : Hash8 :=
  ⟨1779033703, 3144134277, 1013904242, 2773480762, 1359893119, 2600822924, 528734635, 1541459225⟩

/-- Next message-schedule word from the words produced so far. -/
def nextW (w : List Nat) : Nat :=
  let t := w.length
  u32 (sSig1 (w.getD (t - 2) 0) + w.getD (t - 7) 0 + sSig0 (w.getD (t - 15) 0) + w.getD (t - 16) 0)

/-- Extend a 16-word block to the 64-word schedule (48 extension steps). -/
def extendSchedule : Nat → List Nat → List Nat
  | 0, w => w
  | n + 1, w => extendSchedule n (w ++ [nextW w])

def compressStep (s : Hash8) (kw : Nat × Nat) : Hash8 :=
  let t1 := u32 (s.h + bSig1 s.e + chF s.e s.f s.g + kw.1 + kw.2)
  let t2 := u32 (bSig0 s.a + majF s.a s.b s.c)
  ⟨u32 (t1 + t2), s.a, s.b, s.c, u32 (s.d + t1), s.e, s.f, s.g⟩

def addH (x y : Hash8) : Hash8 :=
  ⟨u32 (x.a + y.a), u32 (x.b + y.b), u32 (x.c + y.c), u32 (x.d + y.d),
   u32 (x.e + y.e), u32 (x.f + y.f), u32 (x.g + y.g), u32 (x.h + y.h)⟩

/-- One SHA-256 block compression. -/
def compress (h0 : Hash8) (block : List Nat) : Hash8 :=
  addH h0 ((sha256K.zip (extendSchedule 48 block)).foldl compressStep h0)

/-- Big-endian bytes to 32-bit words. -/
def bytesToWords : List Nat → List Nat
  | b0 :: b1 :: b2 :: b3 :: rest => (b0 * 16777216 + b1 * 65536 + b2 * 256 + b3) :: bytesToWords rest
  | _ => []

/-- Split a byte list into 64-byte blocks (fuel-based so it evaluates in the
kernel). -/
def chunks64 : Nat → List Nat → List (List Nat)
  | 0, _ => []
  | _, [] => []
  | n + 1, xs => xs.take 64 :: chunks64 n (xs.drop 64)

/-- The 64-bit big-endian length trailer. -/
def lenBytes (bitLen : Nat) : List Nat :=
  [(bitLen >>> 56) % 256, (bitLen >>> 48) % 256, (bitLen >>> 40) % 256, (bitLen >>> 32) % 256,
   (bitLen >>> 24) % 256, (bitLen >>> 16) % 256, (bitLen >>> 8) % 256, bitLen % 256]

/-- SHA-256 padding: `0x80`, zeros to 56 mod 64, then the bit length. -/
def padMessage (msg : List Nat) : List Nat :=
  msg ++ [128] ++ List.replicate ((64 + 56 - ((msg.length + 1) % 64)) % 64) 0
      ++ lenBytes (8 * msg.length)

def wordBytes (w : Nat) : List Nat := [(w >>> 24) % 256, (w >>> 16) % 256, (w >>> 8) % 256, w % 256]

/-- `sha256.Sum256`: the 32-byte SHA-256 digest of a byte sequence. -/
def sha256Bytes (msg : List Nat) : List Nat :=
  let padded := padMessage msg
  let hh := (chunks64 (padded.length + 1) padded).foldl (fun acc b => compress acc (bytesToWords b)) initH
  wordBytes hh.a ++ wordBytes hh.b ++ wordBytes hh.c ++ wordBytes hh.d ++
  wordBytes hh.e ++ wordBytes hh.f ++ wordBytes hh.g ++ wordBytes hh.h

/-- UTF-8 encoding of one code point, matching Go's `[]byte(string)`. -/
def utf8Encode (c : Nat) : List Nat :=
  if c < 128 then [c]
  else if c < 2048 then [192 + c / 64, 128 + c % 64]
  else if c < 65536 then [224 + c / 4096, 128 + (c / 64) % 64, 128 + c % 64]
  else [240 + c / 262144, 128 + (c / 4096) % 64, 128 + (c / 64) % 64, 128 + c % 64]

def strToBytes (s : String) : List Nat := (s.data.map (fun c => utf8Encode c.toNat)).flatten

/-- Lowercase hex digit, as produced by `fmt.Sprintf("%x", ...)`. -/
def hexDigit (n : Nat) : Char := if n < 10 then Char.ofNat (48 + n) else Char.ofNat (87 + n)

def byteToHex (b : Nat) : List Char := [hexDigit (b / 16), hexDigit (b % 16)]

def bytesToHex (bs : List Nat) : String := ⟨(bs.map byteToHex).flatten⟩

/-- `fmt.Sprintf("%x", sha256.Sum256([]byte(s)))`: the lowercase-hex SHA-256 of
a string. -/
def sha256hex (s : String) : String := bytesToHex (sha256Bytes (strToBytes s))

/-! ## The mutators (`leash.go` lines 142–195) -/

/-- Per-event effect of `dropEventField`: `delete(ev.Data, field)`. -/
def dropEventField (field : String) (ev : Event) : Event :=
  { ev with data := deleteData ev.data field }

/-- Per-event effect of `scrubEventField`: when `field` is present, replace its
value with the lowercase-hex SHA-256 of the value's `%v` rendering. -/
def scrubEventField (field : String) (ev : Event) : Event :=
  match lookupData ev.data field with
  | some v => { ev with data := setData ev.data field (Value.str (sha256hex (renderValue v))) }
  | none => ev

/-- `strings.SplitN(s, "=", 2)` restricted to its two possible shapes: split at
the first `=` when one exists, `none` otherwise. -/
def splitFirstEq : List Char → Option (List Char × List Char)
  | [] => none
  | c :: rest =>
    if c = '=' then some ([], rest)
    else
      match splitFirstEq rest with
      | some (k, v) => some (c :: k, v)
      | none => none

/-- The key/value extraction at the top of `addEventField`; `none` is the
`logrus.Fatal` path taken when the specification holds no `=`. -/
def parseAddField (field : String) : Option (String × String) :=
  match splitFirstEq field.data with
  | some kv => some (⟨kv.1⟩, ⟨kv.2⟩)
  | none => none

/-- Per-event effect of `addEventField`'s loop body: `ev.Data[key] = val`. -/
def addKV (key val : String) (ev : Event) : Event :=
  { ev with data := setData ev.data key (Value.str val) }

/-! ## The mutator chain (`modifyEventContents`, `leash.go` lines 127–138)

Each `xEventField(field, ch)` call spawns a stage copying events from `ch` to a
fresh channel with the field handler applied; a channel's history is modelled as
the list of events that traverse it, so a stage is a `List.map`. -/

def dropStage (field : String) (evs : List Event) : List Event :=
  evs.map (dropEventField field)

def scrubStage (field : String) (evs : List Event) : List Event :=
  evs.map (scrubEventField field)

/-- `addEventField` splits its specification before the copying loop starts and
calls `logrus.Fatal` (here `none`) when malformed. -/
def addStage (field : String) (evs : List Event) : Option (List Event) :=
  match parseAddField field with
  | some kv => some (evs.map (addKV kv.1 kv.2))
  | none => none

/-- The slice of `GlobalOptions` that the pipeline stages consult. -/
structure GlobalOptions where
  dropFields : List String
  scrubFields : List String
  addFields : List String
  backOff : Bool
  numSenders : Nat
deriving DecidableEq

/-- `modifyEventContents`: wrap the stream in one drop stage per
`options.DropFields` entry, then one scrub stage per `options.ScrubFields`
entry, then one add stage per `options.AddFields` entry, in slice order. -/
def modifyEventContents (toBeSent : List Event) (options : GlobalOptions) : Option (List Event) :=
  (options.addFields.foldlM (fun s f => addStage f s)
    (options.scrubFields.foldl (fun s f => scrubStage f s)
      (options.dropFields.foldl (fun s f => dropStage f s) toBeSent)))

/-- All drop mutators applied to one event, in slice order. -/
def applyDrops (fields : List String) (ev : Event) : Event :=
  fields.foldl (fun e f => dropEventField f e) ev

/-- All scrub mutators applied to one event, in slice order. -/
def applyScrubs (fields : List String) (ev : Event) : Event :=
  fields.foldl (fun e f => scrubEventField f e) ev

/-- All add mutators applied to one event, in slice order (a malformed
specification contributes nothing; the chain constructor would have aborted). -/
def applyAdds (fields : List String) (ev : Event) : Event :=
  fields.foldl (fun e f =>
    match parseAddField f with
    | some kv => addKV kv.1 kv.2 e
    | none => e) ev

/-! ## Parser selection (`getParserAndOptions`, `leash.go` lines 103–122) -/

/-- The parser implementations reachable from the selection switch. -/
inductive ParserKind where
  | nginx
  | htjson
  | mongodb
  | mysql
deriving DecidableEq

/-- The per-parser options group returned alongside the parser. -/
inductive OptGroup where
  | nginxOpts
  | jsonOpts
  | mongoOpts
  | mysqlOpts
deriving DecidableEq

/-- `getParserAndOptions`, keyed on `options.Reqs.ParserName`; `none` is the
nil parser the switch leaves for unmatched names. -/
def getParserAndOptions : String → Option (ParserKind × OptGroup)
  | "nginx" => some (.nginx, .nginxOpts)
  | "json" => some (.htjson, .jsonOpts)
  | "mongo" => some (.mongodb, .mongoOpts)
  | "mongodb" => some (.mongodb, .mongoOpts)
  | "mysql" => some (.mysql, .mysqlOpts)
  | _ => none

/-- The startup check in `run`: a nil parser is `logrus.Fatal`, so startup
proceeds past parser selection exactly when this is `true`. -/
def startupParserOk (parserName : String) : Bool :=
  (getParserAndOptions parserName).isSome

/-! ## The sender loop (`sendToLibhoney`, `leash.go` lines 199–231) -/

/-- Observable actions of one iteration of the sender loop. -/
inductive SenderAction where
  | sleep (ms : Nat)
  | send (ev : Event)
  | done
deriving DecidableEq

/-- The sender's view of its three input channels: buffered contents of
`delaySending` and `toBeResent`, pending events of `toBeSent`, and whether
`toBeSent` has been closed by the producer. -/
structure SenderState where
  delays : List Nat
  retry : List Event
  primary : List Event
  closed : Bool
deriving DecidableEq

/-- First select of an iteration: non-blocking read of `delaySending`; a pending
delay is slept off before anything else happens. -/
def delayPhase (s : SenderState) : List SenderAction × SenderState :=
  match s.delays with
  | [] => ([], s)
  | d :: ds => ([SenderAction.sleep d], { s with delays := ds })

/-- Second and third selects: prefer `toBeResent`, then `toBeSent` (whose closed
and drained state ends the loop), else idle 100 ms. The `Bool` is whether the
loop continues. -/
def sendPhase (s : SenderState) : List SenderAction × SenderState × Bool :=
  match s.retry with
  | ev :: evs => ([SenderAction.send ev], { s with retry := evs }, true)
  | [] =>
    match s.primary with
    | ev :: evs => ([SenderAction.send ev], { s with primary := evs }, true)
    | [] =>
      if s.closed then ([SenderAction.done], s, false)
      else ([SenderAction.sleep 100], s, true)

/-- One full iteration of the `sendToLibhoney` loop. -/
def senderStep (s : SenderState) : List SenderAction × SenderState × Bool :=
  ((delayPhase s).1 ++ (sendPhase (delayPhase s).2).1, (sendPhase (delayPhase s).2).2)

/-! ## The bounded retry channel (`toBeResent`, `leash.go` line 73) -/

/-- Capacity of the retry channel: `make(chan event.Event, 2*options.NumSenders)`. -/
def toBeResentCap (numSenders : Nat) : Nat := 2 * numSenders

/-- Buffer contents reachable on the retry channel: a send completes only while
the buffer is below capacity (a sender attempting more blocks), a receive takes
the oldest element. -/
inductive RetryReachable : Nat → List Event → Prop where
  | empty (n : Nat) : RetryReachable n []
  | send {n : Nat} {buf : List Event} (ev : Event) :
      RetryReachable n buf → buf.length < toBeResentCap n → RetryReachable n (buf ++ [ev])
  | recv {n : Nat} {buf : List Event} {ev : Event} :
      RetryReachable n (ev :: buf) → RetryReachable n buf

/-! ## The response handler (`handleResponses`, `leash.go` lines 254–279) -/

/-- `libhoney.Response`: status code, body, duration, transport-error flag, and
the opaque metadata slot (`some` when it carries the originating `event.Event`,
`none` when absent or of another type). -/
structure Response where
  statusCode : Int
  body : String
  duration : Nat
  err : Bool
  metadata : Option Event
deriving DecidableEq

/-- What one loop body of `handleResponses` pushes outward: the values sent on
`delaySending`, the event sent on `toBeResent` (if any), and the `retry_send`
log field. -/
structure HandlerEffect where
  delays : List Nat
  reinjected : Option Event
  retrySendLogged : Bool
deriving DecidableEq

/-- Outcome of one loop body: either its effects, or the run-time crash of the
unchecked type assertion `rsp.Metadata.(event.Event)`. -/
inductive HandlerOutcome where
  | ok (eff : HandlerEffect)
  | panicked
deriving DecidableEq

/-- One loop body of `handleResponses`. The log-field construction evaluates
`rsp.Metadata.(event.Event).Timestamp` before the retry decision, so a response
without an originating event crashes unconditionally; otherwise the event is
re-enqueued (after a 100 ms delay signal) exactly when `options.BackOff` is set
and the status code is 429 or 500. -/
def handleResponse (options : GlobalOptions) (rsp : Response) : HandlerOutcome :=
  match rsp.metadata with
  | none => .panicked
  | some ev =>
    if options.backOff && (rsp.statusCode == 429 || rsp.statusCode == 500) then
      .ok ⟨[100], some ev, true⟩
    else
      .ok ⟨[], none, false⟩

/-! ## Association-list lemmas for the Go map operations -/

theorem lookupData_setData_self (d : List (String × Value)) (k : String) (v : Value) :
    lookupData (setData d k v) k = some v := by
  induction d with
  | nil => simp [setData, lookupData]
  | cons p rest ih =>
    by_cases h : p.1 = k
    · simp [setData, h, lookupData]
    · simp [setData, h, lookupData, ih]

theorem lookupData_setData_ne (d : List (String × Value)) (k g : String) (v : Value)
    (hg : g ≠ k) : lookupData (setData d k v) g = lookupData d g := by
  induction d with
  | nil => simp [setData, lookupData, Ne.symm hg]
  | cons p rest ih =>
    by_cases h : p.1 = k
    · simp [setData, h, lookupData, Ne.symm hg]
    · simp [setData, h, lookupData, ih]

theorem lookupData_deleteData_ne (d : List (String × Value)) (f g : String)
    (hg : g ≠ f) : lookupData (deleteData d f) g = lookupData d g := by
  induction d with
  | nil => simp [deleteData]
  | cons p rest ih =>
    by_cases h : p.1 = f
    · simp [deleteData, h, lookupData, ih, Ne.symm hg]
    · simp [deleteData, h, lookupData, ih]

/-! ## Claim theorems -/

/-- C1: for every response consumed by the response handler that carries its
originating event, the event is re-injected into the retry queue iff `backOff`
is enabled and the status code is 429 or 500; in exactly that case the handler
publishes a 100 ms delay on the delay channel, and in every other case (any
other status code, including transport errors) nothing is re-injected and no
delay is published. -/
theorem c1_response_retry_rule (options : GlobalOptions) (rsp : Response) (ev : Event)
    (hmeta : rsp.metadata = some ev) :
    ((options.backOff = true ∧ (rsp.statusCode = 429 ∨ rsp.statusCode = 500)) →
        handleResponse options rsp = .ok ⟨[100], some ev, true⟩) ∧
    (¬(options.backOff = true ∧ (rsp.statusCode = 429 ∨ rsp.statusCode = 500)) →
        handleResponse options rsp = .ok ⟨[], none, false⟩) ∧
    (∀ eff : HandlerEffect, handleResponse options rsp = .ok eff →
        ((eff.reinjected = some ev ∧ eff.delays = [100]) ↔
          (options.backOff = true ∧ (rsp.statusCode = 429 ∨ rsp.statusCode = 500)))) := by
  have hcond : (options.backOff && (rsp.statusCode == 429 || rsp.statusCode == 500)) = true ↔
      (options.backOff = true ∧ (rsp.statusCode = 429 ∨ rsp.statusCode = 500)) := by
    simp
  by_cases hb : options.backOff = true ∧ (rsp.statusCode = 429 ∨ rsp.statusCode = 500)
  · have hc := hcond.mpr hb
    refine ⟨fun _ => by simp [handleResponse, hmeta, hc], fun h => absurd hb h, ?_⟩
    intro eff heff
    simp [handleResponse, hmeta, hc] at heff
    simp [← heff, hb]
  · have hc : (options.backOff && (rsp.statusCode == 429 || rsp.statusCode == 500)) = false := by
      rw [Bool.eq_false_iff]
      intro hcc
      exact hb (hcond.mp hcc)
    refine ⟨fun h => absurd h hb, fun _ => by simp [handleResponse, hmeta, hc], ?_⟩
    intro eff heff
    simp [handleResponse, hmeta, hc] at heff
    simp [← heff, hb]

/-- Witness for C1 at a concrete retryable response. -/
theorem c1_response_retry_rule_witness :
    (⟨429, "", 5, false, some ⟨0, []⟩⟩ : Response).metadata = some ⟨0, []⟩ ∧
    handleResponse ⟨[], [], [], true, 1⟩ ⟨429, "", 5, false, some ⟨0, []⟩⟩ =
      .ok ⟨[100], some ⟨0, []⟩, true⟩ :=
  ⟨rfl, (c1_response_retry_rule ⟨[], [], [], true, 1⟩ ⟨429, "", 5, false, some ⟨0, []⟩⟩
    ⟨0, []⟩ rfl).1 ⟨rfl, Or.inl rfl⟩⟩

/-- C3: the claim says the handler tolerates a response whose opaque metadata
slot lacks the originating event; on the code, the unchecked type assertion
`rsp.Metadata.(event.Event)` in the log-field construction crashes instead,
regardless of status code, back-off setting, or error flag. -/
theorem c3_metadata_absent_crash :
    handleResponse ⟨[], [], [], true, 1⟩ ⟨429, "", 0, false, none⟩ = HandlerOutcome.panicked ∧
    handleResponse ⟨[], [], [], false, 1⟩ ⟨200, "ok", 3, true, none⟩ = HandlerOutcome.panicked :=
  ⟨rfl, rfl⟩

/-- C4: the claim says the five names nginx, json, mongo, mysql, postgresql all
select a parser; on the code the selection switch has no postgresql case, so
`getParserAndOptions` leaves the parser nil and startup is fatal for
"postgresql", while the other four names do select a parser. -/
theorem c4_postgresql_not_selectable :
    startupParserOk "postgresql" = false ∧
    startupParserOk "nginx" = true ∧
    startupParserOk "json" = true ∧
    startupParserOk "mongo" = true ∧
    startupParserOk "mysql" = true ∧
    getParserAndOptions "postgresql" = none :=
  ⟨rfl, rfl, rfl, rfl, rfl, rfl⟩

/-- C8: every buffer content reachable on the retry channel holds at most
`2 * numSenders` events, for every positive `numSenders`. -/
theorem c8_retry_queue_bounded (n : Nat) (buf : List Event) (_hn : 0 < n)
    (h : RetryReachable n buf) : buf.length ≤ toBeResentCap n := by
  induction h with
  | empty => simp
  | send ev hr hlt ih =>
    rw [List.length_append]
    simp only [List.length_singleton]
    omega
  | recv hr ih =>
    simp only [List.length_cons] at ih
    omega

/-- Witness for C8: one event sent on a channel sized for one sender. -/
theorem c8_retry_queue_bounded_witness :
    0 < 1 ∧ ([(⟨0, []⟩ : Event)].length ≤ toBeResentCap 1) :=
  ⟨by decide, c8_retry_queue_bounded 1 [⟨0, []⟩] (by decide)
    (RetryReachable.send ⟨0, []⟩ (RetryReachable.empty 1) (by decide))⟩

/-- C9: each mutator touches only its target key: drop and scrub preserve the
timestamp and every data entry under a different key, add preserves the
timestamp and every entry under a key other than its own, and scrub of an
absent key is the identity on the event. -/
theorem c9_mutator_frame (ev : Event) (f g k vs : String) :
    (dropEventField f ev).timestamp = ev.timestamp ∧
    (scrubEventField f ev).timestamp = ev.timestamp ∧
    (addKV k vs ev).timestamp = ev.timestamp ∧
    (g ≠ f → lookupData (dropEventField f ev).data g = lookupData ev.data g) ∧
    (g ≠ f → lookupData (scrubEventField f ev).data g = lookupData ev.data g) ∧
    (g ≠ k → lookupData (addKV k vs ev).data g = lookupData ev.data g) ∧
    (lookupData ev.data f = none → scrubEventField f ev = ev) := by
  refine ⟨rfl, ?_, rfl, ?_, ?_, ?_, ?_⟩
  · cases h : lookupData ev.data f <;> simp [scrubEventField, h]
  · intro hg
    exact lookupData_deleteData_ne ev.data f g hg
  · intro hg
    cases h : lookupData ev.data f with
    | none => simp [scrubEventField, h]
    | some v => simp [scrubEventField, h, lookupData_setData_ne ev.data f g _ hg]
  · intro hg
    exact lookupData_setData_ne ev.data k g _ hg
  · intro h
    simp [scrubEventField, h]

/-- Witness for C9 at a concrete event and concrete distinct keys. -/
theorem c9_mutator_frame_witness :
    (("b" : String) ≠ "a" ∧ ("b" : String) ≠ "c" ∧
     lookupData ([("b", Value.int 1)] : List (String × Value)) "a" = none) ∧
    (dropEventField "a" ⟨2, [("b", Value.int 1)]⟩).timestamp =
      (⟨2, [("b", Value.int 1)]⟩ : Event).timestamp ∧
    lookupData (dropEventField "a" ⟨2, [("b", Value.int 1)]⟩).data "b" =
      lookupData (⟨2, [("b", Value.int 1)]⟩ : Event).data "b" ∧
    lookupData (addKV "c" "v" ⟨2, [("b", Value.int 1)]⟩).data "b" =
      lookupData (⟨2, [("b", Value.int 1)]⟩ : Event).data "b" ∧
    scrubEventField "a" ⟨2, [("b", Value.int 1)]⟩ = ⟨2, [("b", Value.int 1)]⟩ :=
  ⟨⟨by decide, by decide, by decide⟩,
   (c9_mutator_frame ⟨2, [("b", Value.int 1)]⟩ "a" "b" "c" "v").1,
   (c9_mutator_frame ⟨2, [("b", Value.int 1)]⟩ "a" "b" "c" "v").2.2.2.1 (by decide),
   (c9_mutator_frame ⟨2, [("b", Value.int 1)]⟩ "a" "b" "c" "v").2.2.2.2.2.1 (by decide),
   (c9_mutator_frame ⟨2, [("b", Value.int 1)]⟩ "a" "b" "c" "v").2.2.2.2.2.2 (by decide)⟩

/-- C2: the claim says scrubbing is idempotent; on the code, scrubbing a second
time hashes the first hash, so the two sides differ already on the event
`{email: "a@b"}`. -/
theorem c2_scrub_not_idempotent :
    scrubEventField "email" (scrubEventField "email" ⟨0, [("email", Value.str "a@b")]⟩) ≠
      scrubEventField "email" ⟨0, [("email", Value.str "a@b")]⟩ := by
  decide

/-- C2 (amended): scrubbing twice equals scrubbing once exactly as far as the
scrubbed field is absent: on an event without field `f` both sides are the
event itself, while on an event carrying `f ↦ v` the second scrub replaces the
field with the hex SHA-256 of the hex SHA-256 of `v`'s rendering. -/
theorem c2_scrub_double_hash (ev : Event) (f : String) :
    (lookupData ev.data f = none →
       scrubEventField f (scrubEventField f ev) = scrubEventField f ev) ∧
    (∀ v, lookupData ev.data f = some v →
       lookupData (scrubEventField f (scrubEventField f ev)).data f =
         some (Value.str (sha256hex (sha256hex (renderValue v))))) := by
  constructor
  · intro h
    simp [scrubEventField, h]
  · intro v h
    set e1 := scrubEventField f ev with he1
    have h2 : lookupData e1.data f = some (Value.str (sha256hex (renderValue v))) := by
      rw [he1]
      simp [scrubEventField, h, lookupData_setData_self]
    simp [scrubEventField, h2, renderValue]
    exact lookupData_setData_self e1.data f _

/-- Witness for the amended C2: double scrub of an event without the field is a
no-op, and double scrub of `{email: "a@b"}` holds the double hash. -/
theorem c2_scrub_double_hash_witness :
    (lookupData ([("x", Value.int 3)] : List (String × Value)) "email" = none ∧
     scrubEventField "email" (scrubEventField "email" ⟨5, [("x", Value.int 3)]⟩) =
       scrubEventField "email" ⟨5, [("x", Value.int 3)]⟩) ∧
    (lookupData ([("email", Value.str "a@b")] : List (String × Value)) "email" =
       some (Value.str "a@b") ∧
     lookupData (scrubEventField "email" (scrubEventField "email"
         ⟨0, [("email", Value.str "a@b")]⟩)).data "email" =
       some (Value.str (sha256hex (sha256hex (renderValue (Value.str "a@b")))))) :=
  ⟨⟨by decide, (c2_scrub_double_hash ⟨5, [("x", Value.int 3)]⟩ "email").1 (by decide)⟩,
   ⟨by decide, (c2_scrub_double_hash ⟨0, [("email", Value.str "a@b")]⟩ "email").2
      (Value.str "a@b") (by decide)⟩⟩

/-- Auxiliary for C7: `strings.SplitN` finds the first `=` when the key part is
free of `=`. -/
theorem splitFirstEq_append (ks vs : List Char) (hk : ∀ c ∈ ks, c ≠ '=') :
    splitFirstEq (ks ++ '=' :: vs) = some (ks, vs) := by
  induction ks with
  | nil => simp [splitFirstEq]
  | cons c rest ih =>
    have hc : c ≠ '=' := hk c (List.mem_cons_self c rest)
    have hrest : ∀ x ∈ rest, x ≠ '=' := fun x hx => hk x (List.mem_cons_of_mem c hx)
    simp [splitFirstEq, hc, ih hrest]

/-- C7: the add mutator splits its `k=v` specification on the first `=` only,
so the value may itself contain `=`, and it sets `data[k]` to the string `v`,
overwriting any existing entry. -/
theorem c7_add_field_split (k v : String) (hk : ∀ c ∈ k.data, c ≠ '=') :
    parseAddField (k ++ "=" ++ v) = some (k, v) ∧
    (∀ ev : Event, lookupData (addKV k v ev).data k = some (Value.str v)) := by
  constructor
  · obtain ⟨kl⟩ := k
    obtain ⟨vl⟩ := v
    have hdata : (String.mk kl ++ "=" ++ String.mk vl).data = kl ++ '=' :: vl := by
      simp [String.data_append]
    simp [parseAddField, hdata, splitFirstEq_append kl vl hk]
  · intro ev
    simp [addKV, lookupData_setData_self]

/-- Witness for C7 at the spec's own instance `note=k=v`. -/
theorem c7_add_field_split_witness :
    (∀ c ∈ ("note" : String).data, c ≠ '=') ∧
    parseAddField ("note" ++ "=" ++ "k=v") = some ("note", "k=v") ∧
    lookupData (addKV "note" "k=v" ⟨3, [("note", Value.str "old")]⟩).data "note" =
      some (Value.str "k=v") :=
  ⟨by decide, (c7_add_field_split "note" "k=v" (by decide)).1,
   (c7_add_field_split "note" "k=v" (by decide)).2 ⟨3, [("note", Value.str "old")]⟩⟩

/-- Auxiliary for C5: a chain of per-field channel stages equals mapping the
per-event left fold over the stream. -/
theorem foldl_map_stage (g : String → Event → Event) (fields : List String) (evs : List Event) :
    fields.foldl (fun s f => s.map (g f)) evs =
      evs.map (fun e => fields.foldl (fun e f => g f e) e) := by
  induction fields generalizing evs with
  | nil => simp
  | cons f fs ih =>
    simp only [List.foldl_cons]
    rw [ih]
    simp [List.map_map, Function.comp]

/-- Auxiliary for C5: the add stages of the chain, when every specification is
well formed, map the per-event add fold over the stream. -/
theorem foldlM_add_stage (fields : List String) (evs : List Event)
    (h : ∀ f ∈ fields, (parseAddField f).isSome) :
    fields.foldlM (fun s f => addStage f s) evs = some (evs.map (applyAdds fields)) := by
  induction fields generalizing evs with
  | nil =>
    have h1 : List.map (applyAdds []) evs = List.map id evs :=
      List.map_congr_left fun e _ => by simp [applyAdds]
    simp [h1]
  | cons f fs ih =>
    obtain ⟨kv, hkv⟩ := Option.isSome_iff_exists.mp (h f (List.mem_cons_self f fs))
    have hfs : ∀ x ∈ fs, (parseAddField x).isSome := fun x hx => h x (List.mem_cons_of_mem f hx)
    have hstage : addStage f evs = some (evs.map (addKV kv.1 kv.2)) := by
      simp [addStage, hkv]
    have hbind : (f :: fs).foldlM (fun s f => addStage f s) evs =
        fs.foldlM (fun s f => addStage f s) (evs.map (addKV kv.1 kv.2)) := by
      rw [List.foldlM_cons, hstage]
      rfl
    rw [hbind, ih _ hfs, List.map_map]
    congr 1
    refine List.map_congr_left fun e _ => ?_
    simp [applyAdds, Function.comp, hkv]

/-- C5: the mutator chain applies the three mutator kinds in the fixed order
drop, then scrub, then add: for every event stream and configuration whose add
specifications are well formed, the chain's output is the stream mapped through
all drops, then all scrubs, then all adds. -/
theorem c5_mutator_chain_order (toBeSent : List Event) (options : GlobalOptions)
    (h : ∀ f ∈ options.addFields, (parseAddField f).isSome) :
    modifyEventContents toBeSent options =
      some (toBeSent.map (fun e =>
        applyAdds options.addFields
          (applyScrubs options.scrubFields
            (applyDrops options.dropFields e)))) := by
  unfold modifyEventContents
  simp only [dropStage, scrubStage]
  rw [foldl_map_stage dropEventField, foldl_map_stage scrubEventField, List.map_map,
    foldlM_add_stage options.addFields _ h, List.map_map]
  simp [applyDrops, applyScrubs, Function.comp]

/-- Witness for C5 on a concrete stream, one drop field and one add field. -/
theorem c5_mutator_chain_order_witness :
    (∀ f ∈ (["k=v"] : List String), (parseAddField f).isSome) ∧
    modifyEventContents [⟨0, [("a", Value.str "x"), ("c", Value.int 2)]⟩]
        ⟨["a"], [], ["k=v"], false, 1⟩ =
      some ([(⟨0, [("a", Value.str "x"), ("c", Value.int 2)]⟩ : Event)].map (fun e =>
        applyAdds ["k=v"] (applyScrubs [] (applyDrops ["a"] e)))) :=
  ⟨by decide, c5_mutator_chain_order [⟨0, [("a", Value.str "x"), ("c", Value.int 2)]⟩]
    ⟨["a"], [], ["k=v"], false, 1⟩ (by decide)⟩

/-- C6: on every iteration of the sender loop the three inputs are serviced
with strict priority delay > retry > primary: a buffered delay is slept off
first, before any transmission of that iteration; a non-empty retry queue then
supplies the single transmitted event, with the primary queue untouched; and
with nothing ready on an open primary channel the iteration is exactly a
100 ms sleep that leaves the state unchanged and re-polls. -/
theorem c6_sender_priority (s : SenderState) :
    (∀ d ds, s.delays = d :: ds →
       (senderStep s).2.1.delays = ds ∧
       ((senderStep s).1).head? = some (SenderAction.sleep d)) ∧
    (∀ ev evs, s.retry = ev :: evs →
       ((senderStep s).1).getLast? = some (SenderAction.send ev) ∧
       (∀ e : Event, SenderAction.send e ∈ (senderStep s).1 → e = ev) ∧
       (senderStep s).2.1.retry = evs ∧
       (senderStep s).2.1.primary = s.primary ∧
       (senderStep s).2.2 = true) ∧
    (s.delays = [] → s.retry = [] → s.primary = [] → s.closed = false →
       senderStep s = ([SenderAction.sleep 100], s, true)) := by
  obtain ⟨dl, rt, pr, cl⟩ := s
  refine ⟨?_, ?_, ?_⟩
  · rintro d ds rfl
    cases rt with
    | cons ev evs => simp [senderStep, delayPhase, sendPhase]
    | nil =>
      cases pr with
      | cons ev evs => simp [senderStep, delayPhase, sendPhase]
      | nil => cases cl <;> simp [senderStep, delayPhase, sendPhase]
  · rintro ev evs rfl
    cases dl with
    | nil => simp [senderStep, delayPhase, sendPhase]
    | cons d ds => simp [senderStep, delayPhase, sendPhase]
  · rintro rfl rfl rfl rfl
    simp [senderStep, delayPhase, sendPhase]

/-- Witness for C6 at a loaded state (delay 7, one retry event, one primary
event) and at the idle state. -/
theorem c6_sender_priority_witness :
    ((senderStep ⟨[7], [⟨1, []⟩], [⟨2, []⟩], false⟩).2.1.delays = [] ∧
     ((senderStep ⟨[7], [⟨1, []⟩], [⟨2, []⟩], false⟩).1).head? =
       some (SenderAction.sleep 7)) ∧
    (((senderStep ⟨[7], [⟨1, []⟩], [⟨2, []⟩], false⟩).1).getLast? =
       some (SenderAction.send ⟨1, []⟩) ∧
     (senderStep ⟨[7], [⟨1, []⟩], [⟨2, []⟩], false⟩).2.1.primary = [⟨2, []⟩]) ∧
    senderStep ⟨[], [], [], false⟩ = ([SenderAction.sleep 100], ⟨[], [], [], false⟩, true) := by
  refine ⟨(c6_sender_priority ⟨[7], [⟨1, []⟩], [⟨2, []⟩], false⟩).1 7 [] rfl, ?_,
    (c6_sender_priority ⟨[], [], [], false⟩).2.2 rfl rfl rfl rfl⟩
  have h := (c6_sender_priority ⟨[7], [⟨1, []⟩], [⟨2, []⟩], false⟩).2.1 ⟨1, []⟩ [] rfl
  exact ⟨h.1, h.2.2.2.1⟩

/-- C10: "mongodb" is accepted as an alias for "mongo": both select the MongoDB
parser with the Mongo options group. -/
theorem c10_mongodb_alias :
    getParserAndOptions "mongodb" = getParserAndOptions "mongo" ∧
    getParserAndOptions "mongodb" = some (ParserKind.mongodb, OptGroup.mongoOpts) :=
  ⟨rfl, rfl⟩

end Honeytail
